import Mathlib

/-!
Verification development for the tax-filing pipeline of this repository.

This file gives a shallow embedding, in Lean 4, of the parts of the Python
sources that the specification's claims are about:

* `src/generate_xmls.py` — the three filing generators (`generate_kdvp`,
  `generate_div`, `generate_obr`) together with `format_decimal`;
* `src/prepare_all_preprocess.py` — `CurrencyConverter.get_rate`, the
  Revolut provider adapter `process_revolut`, `clean_isin`, and the
  ISIN-resolution / assembly section of the (effective, second) `main`;
* `src/experimentf_files/t212_rev_2_master.py` — `parse_date`,
  `clean_number` and the Trading212 adapter of that variant.

Modelling conventions:

* Python `float` amounts are modelled as `Rat`; `round(v, p)` is modelled as
  exact decimal rounding half-to-even (`roundHalfEven`), ignoring binary
  floating-point representation error.  A fixed-point decimal string
  `f"{x:.pf}"` is represented by its scaled integer value
  `roundHalfEven (x * 10^p)` (so the string "0.00" is represented by `0`).
* Python strings are `String`, manipulated through their `.data` character
  lists so that all operations are kernel-computable.
* External collaborators (the pandas date parser, the yfinance ISIN lookup,
  the downloaded ECB rate table) are parameters: functions and tables passed
  to the embedded code, matching the specification's collaborator interfaces.
* Unhandled Python exceptions are modelled with `Except PyError`.
-/

namespace SlovTax

/-! ### Character-list string helpers (kernel-computable) -/

/-- Uppercase a string (Python `str.upper`, ASCII range). -/
def pyUpper (s : String) : String := String.mk (s.data.map Char.toUpper)

/-- Lowercase a string (Python `str.lower`, ASCII range). -/
def pyLower (s : String) : String := String.mk (s.data.map Char.toLower)

/-- First `n` characters of a string (Python `s[:n]`). -/
def pySlice (s : String) (n : Nat) : String := String.mk (s.data.take n)

/-- Python `str.startswith`. -/
def pyStarts (s pre : String) : Bool := s.data.take pre.data.length == pre.data

/-- Python non-empty `str.isalpha` (all characters alphabetic, string non-empty). -/
def pyIsAlpha (s : String) : Bool := !s.data.isEmpty && s.data.all Char.isAlpha

/-- Lexicographic strict order on character lists: Python string `<`. -/
def chLt : List Char → List Char → Bool
  | [], [] => false
  | [], _ :: _ => true
  | _ :: _, [] => false
  | a :: as, b :: bs =>
    if a.toNat < b.toNat then true
    else if b.toNat < a.toNat then false
    else chLt as bs

/-- Python string `<`. -/
def pyStrLt (a b : String) : Bool := chLt a.data b.data

/-- Whether `p` is a prefix of `s` (Boolean, on character lists). -/
def chStartsList : List Char → List Char → Bool
  | [], _ => true
  | _ :: _, [] => false
  | a :: as, b :: bs => a == b && chStartsList as bs

/-- Whether `pat` occurs as a contiguous substring (Python `pat in s`). -/
def chContains (pat : List Char) : List Char → Bool
  | [] => chStartsList pat []
  | s@(_ :: rest) => chStartsList pat s || chContains pat rest

/-- Python `pat in s` on strings. -/
def pyContains (s pat : String) : Bool := chContains pat.data s.data

/-- Python whitespace test used by `str.strip`. -/
def isPySpace (c : Char) : Bool := c == ' ' || c == '\t' || c == '\n' || c == '\r'

/-- Python `str.strip()`. -/
def pyStrip (s : String) : String :=
  String.mk (((s.data.dropWhile isPySpace).reverse.dropWhile isPySpace).reverse)

/-! ### Exact decimal arithmetic on `Rat`, kernel-computable

`Rat`'s own arithmetic instances do not reduce inside `decide`, so the
embedding uses equivalent operations built from `mkRat`, which does. -/

/-- Multiplication on `Rat` via `mkRat` (equal to `a * b`). -/
def rMul (a b : Rat) : Rat := mkRat (a.num * b.num) (a.den * b.den)

/-- Subtraction on `Rat` via `mkRat` (equal to `a - b`). -/
def rSub (a b : Rat) : Rat := mkRat (a.num * b.den - b.num * a.den) (a.den * b.den)

/-- Absolute value on `Rat` (Python `abs`). -/
def rAbs (a : Rat) : Rat := if a.num < 0 then mkRat (-a.num) a.den else a

/-- Reciprocal on `Rat` (Python `1 / x` for `x ≠ 0`). -/
def rInv (b : Rat) : Rat :=
  mkRat (if b.num < 0 then -(b.den : Int) else (b.den : Int)) b.num.natAbs

/-- Floor of a rational as an integer. -/
def ratFloorZ (q : Rat) : Int := q.num.fdiv q.den

/-- Round to the nearest integer, ties to even: the rounding mode of Python's
`round` (banker's rounding), modelled exactly on rationals. -/
def roundHalfEven (q : Rat) : Int :=
  let f := ratFloorZ q
  let frac := rSub q (mkRat f 1)
  if frac < mkRat 1 2 then f
  else if mkRat 1 2 < frac then f + 1
  else if f % 2 = 0 then f else f + 1

/-- Python `round(v, p)` represented by the scaled integer
`round(v * 10^p)`; the fixed-point string `f"{round(v,p):.pf}"` renders this
integer at `p` decimal places. -/
def pyRound (v : Rat) (p : Nat) : Int := roundHalfEven (rMul v (mkRat ((10 ^ p : Nat) : Int) 1))

/-! ### Data model

A row of `master_data.csv` as consumed by the filing generators and produced
by the preprocessing pipeline (columns per `prepare_all_preprocess.py`):
`Source, Date, Type, Ticker, ISIN, Name, Quantity, TotalValueEUR, TaxPaidEUR`.
The CSV `Type` column is the field `Typ` (`Type` is reserved in Lean). -/
structure Tx where
  Source : String
  Date : String
  Typ : String
  Ticker : String
  ISIN : String
  Name : String
  Quantity : Rat
  TotalValueEUR : Rat
  TaxPaidEUR : Rat
deriving DecidableEq, Repr

/-- Constant `TAX_YEAR = 2025` from `generate_xmls.py`. -/
def TAX_YEAR : Nat := 2025

/-- Unhandled Python exceptions surfaced by the embedded code. -/
inductive PyError where
  /-- Error `UnboundLocalError`: local variable `row` referenced before assignment
  (`generate_xmls.py`, line 165). -/
  | unboundLocalRow
  /-- Error `ZeroDivisionError` from `1 / raw_rate` with a zero table rate. -/
  | zeroDivision
deriving DecidableEq, Repr

instance {ε α : Type} [DecidableEq ε] [DecidableEq α] : DecidableEq (Except ε α) := fun a b =>
  match a, b with
  | .ok x, .ok y =>
    if h : x = y then .isTrue (by rw [h]) else .isFalse (by intro hc; cases hc; exact h rfl)
  | .error x, .error y =>
    if h : x = y then .isTrue (by rw [h]) else .isFalse (by intro hc; cases hc; exact h rfl)
  | .ok _, .error _ => .isFalse (by intro hc; cases hc)
  | .error _, .ok _ => .isFalse (by intro hc; cases hc)

/-! ### `format_decimal` (`generate_xmls.py`, lines 65-80)

Returns the formatted decimal string, represented by its scaled integer
value, or `none` when `require_nonzero` and the value rounds to zero.  The
`try: v = float(value) except: v = 0.0` guard cannot fire for a `Rat`
argument and is not modelled. -/
def format_decimal (value : Rat) (precision : Nat) (require_nonzero : Bool) : Option Int :=
  let rounded := pyRound value precision
  if require_nonzero && rounded == 0 then none else some rounded

/-! ### Sorting by date (`trades.sort(key=lambda x: x['Date'])` and
`all_rows.sort(key=lambda x: x['Date'])`)

Python's stable sort, modelled by a stable insertion sort using string `<`
on the `Date` column. -/

/-- Insert a transaction into a date-sorted list, after all entries whose
date is not greater (stability). -/
def insertByDate (l : List Tx) (t : Tx) : List Tx :=
  match l with
  | [] => [t]
  | h :: rest => if pyStrLt t.Date h.Date then t :: h :: rest else h :: insertByDate rest t

/-- Stable sort of transactions by the `Date` column. -/
def sortByDate (l : List Tx) : List Tx := l.foldl insertByDate []

/-! ### `generate_div` (`generate_xmls.py`, lines 191-276)

The envelope/header/taxpayer metadata is not modelled; the document body is
the list of `Dividend` records in emission order. -/

/-- One `Dividend` element of the Doh-Div document.  `Value` and
`ForeignTax` are the 2-decimal fixed-point strings, represented by scaled
integers. -/
structure DivRecord where
  Date : String
  PayerIdentificationNumber : String
  PayerName : String
  PayerAddress : String
  PayerCountry : String
  TypCode : String
  Value : Int
  ForeignTax : Int
  SourceCountry : String
deriving DecidableEq, Repr

/-- Second half of the country-code derivation (line 246):
`isin[:2].upper() if len(isin) >= 2 and isin[:2].isalpha() else "US"`. -/
def divCountryCore (isin : String) : String :=
  if 2 ≤ isin.data.length && pyIsAlpha (pySlice isin 2) then pyUpper (pySlice isin 2) else "US"

/-- Country-code derivation of `generate_div` (lines 244-246):
`isin = t['ISIN'] if t['ISIN'] else "UNKNOWN"`, then `divCountryCore`. -/
def divCountryCode (isinRaw : String) : String :=
  divCountryCore (if isinRaw == "" then "UNKNOWN" else isinRaw)

/-- The `Dividend` record built for a transaction whose value string is `v`
(lines 241-269). -/
def divRecordOf (t : Tx) (v : Int) : DivRecord :=
  { Date := t.Date
    PayerIdentificationNumber := "00000000"
    PayerName := if t.Name == "" then "Unknown" else t.Name
    PayerAddress := "Unknown Address"
    PayerCountry := divCountryCode t.ISIN
    TypCode := "1"
    Value := v
    ForeignTax := (format_decimal t.TaxPaidEUR 2 false).getD 0
    SourceCountry := divCountryCode t.ISIN }

/-- Body of the `for t in divs` loop (lines 230-269): `none` when the item is
skipped by the `value_str is None or float(value_str) <= 0` check. -/
def divEmit (t : Tx) : Option DivRecord :=
  match format_decimal t.TotalValueEUR 2 false with
  | none => none
  | some v => if v ≤ 0 then none else some (divRecordOf t v)

/-- Generator `generate_div`: filter `Type == 'DIV'` and `Date.startswith(str(TAX_YEAR))`,
sort by date, then emit records (skipping non-positive values). -/
def generate_div (transactions : List Tx) : List DivRecord :=
  let divs := transactions.filter
    (fun t => t.Typ == "DIV" && pyStarts t.Date (toString TAX_YEAR))
  (sortByDate divs).filterMap divEmit

/-! ### `generate_obr` (`generate_xmls.py`, lines 280-337) -/

/-- One `ObrestiItem` element of the Doh-Obr document.  The source appends a
second `TujDavek` element and a `DrzavaVir` element when the tax string is
non-zero; these are the two `Option` fields. -/
structure ObrRecord where
  DatumPrejetja : String
  VrstaObresti : String
  Opis : String
  Znesek : Int
  Drzava : String
  TujDavek : Int
  TujDavekRepeat : Option Int
  DrzavaVir : Option String
deriving DecidableEq, Repr

/-- Body of the `for t in items` loop (lines 315-335).  Note the zero-skip
check `if znesek_str is None: continue` tests the result of
`format_decimal(..., 2)` called without `require_nonzero=True`, which never
returns `None`. -/
def obrEmit (t : Tx) : Option ObrRecord :=
  match format_decimal t.TotalValueEUR 2 false with
  | none => none
  | some znesek =>
    let code := if t.Source == "Revolut" then "1" else "3"
    let country := if t.Source == "Revolut" then "LT" else "GB"
    let tuj := (format_decimal t.TaxPaidEUR 2 false).getD 0
    some { DatumPrejetja := t.Date
           VrstaObresti := code
           Opis := t.Source ++ " Interest"
           Znesek := znesek
           Drzava := country
           TujDavek := tuj
           TujDavekRepeat := if tuj ≠ 0 then some tuj else none
           DrzavaVir := if tuj ≠ 0 then some country else none }

/-- Generator `generate_obr`: filter `Type in ['INTEREST','LENDING']` and
`Date.startswith(str(TAX_YEAR))`, then emit items. -/
def generate_obr (transactions : List Tx) : List ObrRecord :=
  (transactions.filter
    (fun t => (t.Typ == "INTEREST" || t.Typ == "LENDING")
      && pyStarts t.Date (toString TAX_YEAR))).filterMap obrEmit

/-! ### `generate_kdvp` (`generate_xmls.py`, lines 113-187) -/

/-- One acquisition (`Pridobitev`) or disposal (`Odsvojitev`) row; quantity
and value are the 4-decimal fixed-point strings as scaled integers. -/
structure KdvpRow where
  Datum : String
  Kolicina : Int
  Vrednost : Int
deriving DecidableEq, Repr

/-- One `KDVPItem/PopisniList` group of the Doh-KDVP document. -/
structure KdvpGroup where
  Naziv : String
  Isin : String
  Pridobitve : List KdvpRow
  Odsvojitve : List KdvpRow
deriving DecidableEq, Repr

/-- Grouping step of `grouped = defaultdict(list)` (insertion-ordered keys,
appending each transaction to its ticker's list). -/
def addToGroup (groups : List (String × List Tx)) (t : Tx) : List (String × List Tx) :=
  match groups with
  | [] => [(t.Ticker, [t])]
  | (k, ts) :: rest =>
    if k == t.Ticker then (k, ts ++ [t]) :: rest else (k, ts) :: addToGroup rest t

/-- Grouping `grouped[t['Ticker']].append(t)` over the BUY/SELL rows (lines 138-141). -/
def groupByTicker (l : List Tx) : List (String × List Tx) := l.foldl addToGroup []

/-- The whole-group filter (lines 145-147): a ticker is reported only when
some SELL of it falls within the tax year. -/
def hasSellInYear (trades : List Tx) : Bool :=
  trades.any (fun t => t.Typ == "SELL" && pyStarts t.Date (toString TAX_YEAR))

/-- Fallback `next((f(t) for t in trades if f(t)), dflt)` (lines 150-151). -/
def firstNonEmpty (f : Tx → String) (trades : List Tx) (dflt : String) : String :=
  match trades.find? (fun t => f t != "") with
  | some t => f t
  | none => dflt

/-- The `for t in trades` loop (lines 163-184).  Its first statement,
`add_decimal_el(row, ...)`, reads the function-local variable `row`, which is
only assigned later (lines 174/180); `row` is modelled by an `Option` that
starts out `none` (unbound).  On the first iteration Python raises
`UnboundLocalError`, so the `some` branch is unreachable from
`generate_kdvp`; it is modelled after lines 173-184 (the stray children that
lines 165-166 would append to the previous row are not tracked). -/
def kdvpTradesLoop (row : Option Unit) (acc : KdvpGroup) :
    List Tx → Except PyError KdvpGroup
  | [] => .ok acc
  | t :: rest =>
    match row with
    | none => .error .unboundLocalRow
    | some _ =>
      if t.Typ == "BUY" then
        kdvpTradesLoop (some ())
          { acc with Pridobitve := acc.Pridobitve ++
              [⟨t.Date, pyRound t.Quantity 4, pyRound t.TotalValueEUR 4⟩] } rest
      else if t.Typ == "SELL" then
        kdvpTradesLoop (some ())
          { acc with Odsvojitve := acc.Odsvojitve ++
              [⟨t.Date, pyRound t.Quantity 4, pyRound t.TotalValueEUR 4⟩] } rest
      else kdvpTradesLoop row acc rest

/-- Generator `generate_kdvp`: group BUY/SELL rows by ticker, keep groups with an
in-year SELL, and run the per-group trades loop (which reads `row` before
assignment). -/
def generate_kdvp (transactions : List Tx) : Except PyError (List KdvpGroup) :=
  let grouped := groupByTicker
    (transactions.filter (fun t => t.Typ == "BUY" || t.Typ == "SELL"))
  grouped.foldlM
    (fun acc tg =>
      if !hasSellInYear tg.2 then pure acc
      else do
        let name := firstNonEmpty (fun t => t.Name) tg.2 tg.1
        let isin := firstNonEmpty (fun t => t.ISIN) tg.2 tg.1
        let g ← kdvpTradesLoop none ⟨name, isin, [], []⟩ (sortByDate tg.2)
        pure (acc ++ [g]))
    []

/-! ### `CurrencyConverter.get_rate` (`prepare_all_preprocess.py`, lines 42-52)

The downloaded ECB history (`self.rates`) is a date-indexed table of rows;
dates are modelled as integer day numbers so that `target_date -
timedelta(days=i)` becomes integer subtraction.  In a row, a currency maps
to `some (some r)` (a present rate `r`), `some none` (a present column whose
value is NaN — `pd.isna` true), or is absent. -/

/-- One table row: currency column → optional cell value (`none` = NaN). -/
abbrev RateRow := List (String × Option Rat)

/-- The date-indexed rate table. -/
abbrev RateTable := List (Int × RateRow)

/-- The `for i in range(5)` loop of `get_rate`, over the candidate days
`date, date-1, ..., date-4` in order.  A day is skipped when it is not in
the table, the currency column is absent, or the cell is NaN; a present cell
returns `(1 / raw_rate, check_date, raw_rate)` — and a present cell equal to
zero makes `1 / raw_rate` raise `ZeroDivisionError`.  Exhausting the loop
returns `(None, None, None)`, modelled as `none`. -/
def getRateDays (rates : RateTable) (currency : String) :
    List Int → Except PyError (Option (Rat × Int × Rat))
  | [] => .ok none
  | d :: ds =>
    match rates.lookup d with
    | none => getRateDays rates currency ds
    | some row =>
      match row.lookup currency with
      | none => getRateDays rates currency ds
      | some none => getRateDays rates currency ds
      | some (some raw) =>
        if raw == 0 then .error .zeroDivision
        else .ok (some (rInv raw, d, raw))

/-- Lookup `CurrencyConverter.get_rate`: the reporting currency returns
`(1.0, date_str, 1.0)` immediately; otherwise the 5-day look-back loop. -/
def get_rate (rates : RateTable) (date : Int) (currency : String) :
    Except PyError (Option (Rat × Int × Rat)) :=
  if currency == "EUR" then .ok (some (mkRat 1 1, date, mkRat 1 1))
  else getRateDays rates currency ((List.range 5).map (fun i => date - (i : Int)))

/-- Whether day `d` has a present, non-missing cell for `currency`
(the conjunction `check_date in self.rates and currency in rate_row and not
pd.isna(rate_row[currency])`), returning the raw rate: the date lookup,
then the currency lookup, then flattening away a NaN cell. -/
def presentRate (rates : RateTable) (currency : String) (d : Int) : Option Rat :=
  ((rates.lookup d).bind (fun row => row.lookup currency)).bind id

/-- Modelled from the spec's words, for comparison with the code: "reporting
currency always returns factor = 1.0 immediately. Otherwise looks up date,
then date - 1, ... up to 4 days back; the first day with a present,
non-zero, non-missing rate for that currency wins. If none of the 5
candidate days has the currency, result is NotFound." -/
def rate_lookup_spec (rates : RateTable) (date : Int) (currency : String) :
    Option (Rat × Int) :=
  if currency == "EUR" then some (mkRat 1 1, date)
  else
    match ((List.range 5).map (fun i => date - (i : Int))).find?
        (fun d => match presentRate rates currency d with
                  | some raw => raw != 0
                  | none => false) with
    | some d =>
      match presentRate rates currency d with
      | some raw => some (rInv raw, d)
      | none => none
    | none => none

/-! ### Skip and audit records (`prepare_all_preprocess.py`)

The source writes skip rows `{'Source', 'Row', 'Reason', 'RawData'}` with an
interpolated reason string; the reason text is modelled structurally. -/

/-- The reason strings appended to `skipped_log`, one constructor per
interpolation site. -/
inductive SkipReason where
  /-- Reason `f'Type {r_type} not relevant'` (Revolut adapter). -/
  | typeNotRelevant (rtype : String)
  /-- Reason `'Stock trade missing Ticker'` (Revolut adapter). -/
  | missingTicker
  /-- Reason `'Invalid Date'` (Revolut adapter); the raw date is the `RawData`. -/
  | invalidDate (raw : String)
  /-- Reason `f'Action {action} skipped'` (Trading212 adapter). -/
  | actionSkipped (action : String)
  /-- Reason `f'ISIN NOT FOUND for {ticker}'` (ISIN resolution, `Row` is `'N/A'`). -/
  | isinNotFound (ticker : String)
deriving DecidableEq, Repr

/-- One `skipped_log` entry; `Row := none` models the literal `'N/A'`. -/
structure SkipRec where
  Source : String
  Row : Option Nat
  Reason : SkipReason
deriving DecidableEq, Repr

/-- One `audit_log` entry (`prepare_all_preprocess.py`, lines 128-130). -/
structure AuditRec where
  Date : String
  Source : String
  Ticker : String
  OrigAmount : Rat
  Curr : String
  RateUsed : Rat
  FinalEUR : Rat
deriving DecidableEq, Repr

/-! ### The Revolut adapter `process_revolut`
(`prepare_all_preprocess.py`, lines 80-143)

The pandas date parser `pd.to_datetime(...).strftime('%Y-%m-%d')` is the
collaborator parameter `pdParse` (`none` models a raised parse error), and
the converter's `get_rate` is the collaborator parameter `conv` (`none`
models the `(None, None, None)` result).  Numeric cells are modelled
already parsed (`clean_number` on a float is the identity; a missing cell is
the source's `row.get(..., 0)` default), and the `Currency` field carries
the source's `'USD'` default for a missing cell. -/

/-- One raw Revolut CSV row as read by the adapter. -/
structure RevRow where
  Typ : String
  Ticker : String
  Symbol : String
  Description : String
  Date : String
  CompletedDate : String
  TotalAmount : Rat
  Amount : Rat
  Currency : String
  Quantity : Rat
deriving DecidableEq, Repr

/-- The type-mapping ladder of `process_revolut` (lines 87-100), applied to
the uppercased `Type` column and uppercased `Description`. -/
def revTransTypeOf (r_type desc : String) : String :=
  if r_type == "BUY" || r_type == "MARKET BUY" then "BUY"
  else if r_type == "SELL" || r_type == "MARKET SELL" then "SELL"
  else if r_type == "DIVIDEND" || r_type == "DIV" then "DIV"
  else if r_type == "INTEREST" || pyContains desc "SAVINGS" then "INTEREST"
  else ""

/-- Fallback `ticker = row.get('Ticker', '') or row.get('Symbol', '')`. -/
def revTickerOf (row : RevRow) : String :=
  if row.Ticker != "" then row.Ticker else row.Symbol

/-- Fallback `raw_date = row.get('Date', '') or row.get('Completed Date', '')`. -/
def revRawDate (row : RevRow) : String :=
  if row.Date != "" then row.Date else row.CompletedDate

/-- What one loop iteration contributes: a skip reason, or a kept master row
with an optional audit record. -/
inductive RowOutcome where
  | skip (reason : SkipReason)
  | keep (t : Tx) (a : Option AuditRec)
deriving DecidableEq, Repr

/-- The body of the `for idx, row in df.iterrows()` loop of
`process_revolut` (lines 86-142). -/
def processRevRow (pdParse : String → Option String)
    (conv : String → String → Option (Rat × String × Rat)) (row : RevRow) : RowOutcome :=
  let r_type := pyUpper row.Typ
  let ticker := revTickerOf row
  let trans_type := revTransTypeOf r_type (pyUpper row.Description)
  if trans_type == "" then .skip (.typeNotRelevant r_type)
  else if (trans_type == "BUY" || trans_type == "SELL" || trans_type == "DIV")
      && ticker == "" then .skip .missingTicker
  else
    match pdParse (revRawDate row) with
    | none => .skip (.invalidDate (revRawDate row))
    | some date_str =>
      let amount := rAbs (if row.TotalAmount != 0 then row.TotalAmount else row.Amount)
      let currency := row.Currency
      let conv_res : Rat × Option AuditRec :=
        if currency != "EUR" then
          match conv date_str currency with
          | some (rate, _, raw_ecb) =>
            if rate != 0 then
              (rMul amount rate,
               some ⟨date_str, "Revolut", ticker, amount, currency, raw_ecb,
                     rMul amount rate⟩)
            else (amount, none)
          | none => (amount, none)
        else (amount, none)
      .keep { Source := "Revolut"
              Date := date_str
              Typ := trans_type
              Ticker := if ticker != "" then ticker else "CASH"
              ISIN := ""
              Name := if ticker != "" then ticker else "Revolut Interest"
              Quantity := row.Quantity
              TotalValueEUR := conv_res.1
              TaxPaidEUR := 0 } conv_res.2

/-- The adapter's three outputs: kept rows, audit rows and skip rows. -/
structure AdapterOut where
  rows : List Tx
  audit : List AuditRec
  skipped : List SkipRec
deriving DecidableEq, Repr

/-- The adapter loop from row index `idx` on: each kept row and audit entry
is emitted in order, each skip is recorded with its row index. -/
def processRevFrom (pdParse : String → Option String)
    (conv : String → String → Option (Rat × String × Rat)) :
    Nat → List RevRow → AdapterOut
  | _, [] => ⟨[], [], []⟩
  | idx, row :: rest =>
    let out := processRevFrom pdParse conv (idx + 1) rest
    match processRevRow pdParse conv row with
    | .skip reason => ⟨out.rows, out.audit, ⟨"Revolut", some idx, reason⟩ :: out.skipped⟩
    | .keep t none => ⟨t :: out.rows, out.audit, out.skipped⟩
    | .keep t (some a) => ⟨t :: out.rows, a :: out.audit, out.skipped⟩

/-- Adapter `process_revolut`: the whole loop, indices from 0. -/
def process_revolut (pdParse : String → Option String)
    (conv : String → String → Option (Rat × String × Rat)) (rows : List RevRow) :
    AdapterOut :=
  processRevFrom pdParse conv 0 rows

/-! ### `clean_isin` and the ISIN-resolution / assembly section of `main`
(`prepare_all_preprocess.py`, lines 272-290 and 316-400; the second `main`
definition is the one Python executes)

The yfinance lookup `find_isin_online` is the collaborator parameter
`lookup` (`none` models a failed search, which the source logs and leaves
empty). -/

/-- Sanitizer `clean_isin` (lines 272-290): strip, then map the textual null forms to
the empty string. -/
def clean_isin (value : String) : String :=
  let s := pyStrip value
  if pyLower s == "nan" || pyLower s == "none" || pyLower s == "" || pyLower s == "-"
  then "" else s

/-- Assignment `existing_isins[ticker] = isin`: Python dict assignment, modelled by
prepending (lookups below return the most recent binding). -/
def cacheUp (c : List (String × String)) (k v : String) : List (String × String) :=
  (k, v) :: c

/-- Lookups `ticker in existing_isins` / `existing_isins[ticker]`. -/
def cacheGet (c : List (String × String)) (k : String) : Option String := c.lookup k

/-- One iteration of the cache-building pass (lines 340-342):
`if r['ISIN']: existing_isins[r['Ticker']] = r['ISIN']`. -/
def buildCacheStep (c : List (String × String)) (r : Tx) : List (String × String) :=
  if r.ISIN != "" then cacheUp c r.Ticker r.ISIN else c

/-- The cache-building pass (lines 339-342): every row with a non-empty
ISIN contributes its ticker binding. -/
def buildCache (rows : List Tx) : List (String × String) :=
  rows.foldl buildCacheStep []

/-- State threaded through the resolution loop: the cache, the
`searched_tickers` set, the skip log, the instrumented list of external
lookups performed (in order), and the processed rows (in order). -/
structure ResolveState where
  cache : List (String × String)
  searched : List String
  skipped : List SkipRec
  calls : List String
  outRows : List Tx
deriving DecidableEq, Repr

/-- The body of the resolution loop (lines 349-392): non-BUY/SELL rows and
rows that already carry an ISIN pass through; an empty ISIN is filled from
the cache when possible; otherwise the ticker is searched online at most
once (recorded in `calls`), a success fills row and cache, a failure
appends an `ISIN NOT FOUND` skip row; a ticker already searched re-checks
the cache (the source's lines 388-392) and otherwise passes through. -/
def resolveStep (lookup : String → Option String) (st : ResolveState) (r : Tx) :
    ResolveState :=
  if !(r.Typ == "BUY" || r.Typ == "SELL") then { st with outRows := st.outRows ++ [r] }
  else if r.ISIN != "" then { st with outRows := st.outRows ++ [r] }
  else
    match cacheGet st.cache r.Ticker with
    | some isin => { st with outRows := st.outRows ++ [{ r with ISIN := isin }] }
    | none =>
      if r.Ticker ∈ st.searched then
        match cacheGet st.cache r.Ticker with
        | some isin => { st with outRows := st.outRows ++ [{ r with ISIN := isin }] }
        | none => { st with outRows := st.outRows ++ [r] }
      else
        match lookup r.Ticker with
        | some found =>
          { st with
            searched := r.Ticker :: st.searched
            calls := st.calls ++ [r.Ticker]
            cache := cacheUp st.cache r.Ticker found
            outRows := st.outRows ++ [{ r with ISIN := found }] }
        | none =>
          { st with
            searched := r.Ticker :: st.searched
            calls := st.calls ++ [r.Ticker]
            skipped := st.skipped ++ [⟨"ISIN_CHECK", none, .isinNotFound r.Ticker⟩]
            outRows := st.outRows ++ [r] }

/-- The whole resolution pass over the merged rows. -/
def isinResolve (lookup : String → Option String) (rows : List Tx) : ResolveState :=
  rows.foldl (resolveStep lookup) ⟨buildCache rows, [], [], [], []⟩

/-- The sanitizing pass (lines 331-333): `r['ISIN'] = clean_isin(r.get('ISIN'))`. -/
def sanitizeRows (rows : List Tx) : List Tx :=
  rows.map (fun r => { r with ISIN := clean_isin r.ISIN })

/-- Sanitize and resolve: the state after the ISIN section of `main`. -/
def assembleSt (lookup : String → Option String) (all_rows : List Tx) : ResolveState :=
  isinResolve lookup (sanitizeRows all_rows)

/-- The ledger assembly of `main` (lines 329-400): sanitize, resolve ISINs,
sort by date; returns the emitted canonical ledger and the skip rows the
assembly itself appends. -/
def assemble (lookup : String → Option String) (all_rows : List Tx) :
    List Tx × List SkipRec :=
  (sortByDate (assembleSt lookup all_rows).outRows, (assembleSt lookup all_rows).skipped)

/-! ### `parse_date`, `clean_number` and the Trading212 adapter of
`src/experimentf_files/t212_rev_2_master.py`

`datetime.strptime(text, fmt).strftime('%Y-%m-%d')` is the collaborator
parameter `strptime` (`none` models a raised `ValueError`). -/

/-- The fixed ordered list of date layouts (lines 16-21). -/
def dateFormats : List String :=
  ["%Y-%m-%d", "%Y-%m-%d %H:%M:%S", "%d/%m/%Y", "%d/%m/%Y %H:%M:%S",
   "%m/%d/%Y", "%m/%d/%Y %H:%M:%S", "%d.%m.%Y", "%d-%m-%Y"]

/-- Truncation `date_str.split(' ')[0]`. -/
def firstToken (s : String) : String := String.mk (s.data.takeWhile (fun c => c != ' '))

/-- The `for fmt in formats` loop of `parse_date`: the first layout that
parses wins; on total failure the original text is returned. -/
def parseDateGo (strptime : String → String → Option String) (date_str : String) :
    List String → String
  | [] => date_str
  | fmt :: rest =>
    match strptime fmt (firstToken date_str) with
    | some formatted => formatted
    | none => parseDateGo strptime date_str rest

/-- Function `parse_date` (lines 14-27). -/
def parse_date (strptime : String → String → Option String) (date_str : String) : String :=
  parseDateGo strptime date_str dateFormats

/-- Python `float()` on plain decimal notation (optional sign, digits, one
optional decimal point); exponent and other exotic forms are outside the
modelled domain and behave as unparseable. -/
def pyFloatParse (l0 : List Char) : Option Rat :=
  let sgn : Int := match l0 with | '-' :: _ => -1 | _ => 1
  let l := match l0 with | '-' :: rest => rest | '+' :: rest => rest | _ => l0
  let ip := l.takeWhile (fun c => c != '.')
  let rest := l.dropWhile (fun c => c != '.')
  match rest with
  | [] => if !ip.isEmpty && ip.all Char.isDigit then
      some (mkRat (sgn * (ip.foldl (fun acc c => acc * 10 + (c.toNat - 48)) 0 : Nat)) 1)
    else none
  | _ :: fp =>
    if fp.any (fun c => c == '.') then none
    else if ip.isEmpty && fp.isEmpty then none
    else if ip.all Char.isDigit && fp.all Char.isDigit then
      some (mkRat
        (sgn * ((ip.foldl (fun acc c => acc * 10 + (c.toNat - 48)) 0 : Nat) * 10 ^ fp.length
          + (fp.foldl (fun acc c => acc * 10 + (c.toNat - 48)) 0 : Nat)))
        (10 ^ fp.length))
    else none

/-- Function `clean_number` (lines 30-37): empty is 0, currency symbols and commas
are stripped, anything `float()` rejects is 0. -/
def clean_number (value : String) : Rat :=
  if value == "" then 0
  else
    match pyFloatParse
        ((pyStrip value).data.filter
          (fun c => !(c == '$' || c == '€' || c == '£' || c == ','))) with
    | some q => q
    | none => 0

/-- One raw Trading212 CSV row of this variant (numeric cells as text). -/
structure T212MRow where
  Action : String
  Time : String
  Ticker : String
  Shares : String
  TotalEUR : String
  Total : String
  ExchangeRate : String
  ISIN : String
  Name : String
  WithTaxEUR : String
  WithTax : String
deriving DecidableEq, Repr

/-- A master row of this variant (its CSV has no `Source` column). -/
structure MRowB where
  Ticker : String
  Date : String
  Typ : String
  Quantity : Rat
  TotalValueEUR : Rat
  ISIN : String
  Name : String
  TaxPaidEUR : Rat
deriving DecidableEq, Repr

/-- The body of the `for row in reader` loop of `process_trading212`
(lines 49-90): unmapped actions are dropped silently (`continue`, no skip
log in this variant), every kept entry's date comes from `parse_date`. -/
def t212mEmit (strptime : String → String → Option String) (row : T212MRow) :
    Option MRowB :=
  let action := pyLower row.Action
  let type_mapped :=
    if pyContains action "buy" then "BUY"
    else if pyContains action "sell" then "SELL"
    else if pyContains action "dividend" then "DIV"
    else ""
  if type_mapped == "" then none
  else
    let total_eur :=
      if row.TotalEUR != "" then clean_number row.TotalEUR
      else if row.Total != "" && row.ExchangeRate != "" then
        rMul (clean_number row.Total) (clean_number row.ExchangeRate)
      else clean_number row.Total
    let tax_paid :=
      if row.WithTaxEUR != "" then clean_number row.WithTaxEUR
      else clean_number row.WithTax
    some { Ticker := row.Ticker
           Date := parse_date strptime row.Time
           Typ := type_mapped
           Quantity := clean_number row.Shares
           TotalValueEUR := rAbs total_eur
           ISIN := row.ISIN
           Name := row.Name
           TaxPaidEUR := rAbs tax_paid }

/-- Adapter `process_trading212` of the experimentf master-merge variant. -/
def process_trading212_m (strptime : String → String → Option String)
    (rows : List T212MRow) : List MRowB :=
  rows.filterMap (t212mEmit strptime)

/-! ### Concrete inputs used by the claims' witnesses and counterexamples -/

/-- Concrete ledger for C1: one BUY and one in-year SELL of the same ticker. -/
def c1Ledger : List Tx :=
  [⟨"T212", "2025-03-01", "BUY", "AAPL", "US0378331005", "Apple", mkRat 10 1, mkRat 1000 1, 0⟩,
   ⟨"T212", "2025-06-01", "SELL", "AAPL", "US0378331005", "Apple", mkRat 10 1, mkRat 1200 1, 0⟩]

/-- Concrete table for C2's counterexample: the requested day carries a
present zero rate for USD, the previous day a present rate of 2. -/
def c2Table : RateTable :=
  [(0, [("USD", some 0)]), (-1, [("USD", some (mkRat 2 1))])]

/-- Concrete table for C2's witness: only the day before the request has a
rate (the weekend look-back scenario). -/
def c2wTable : RateTable := [(-1, [("USD", some (mkRat 2 1))])]

/-- Concrete ledger for C3: a single in-year SELL. -/
def c3Ledger : List Tx :=
  [⟨"T212", "2025-06-01", "SELL", "TSLA", "US88160R1014", "Tesla", mkRat 1 1, mkRat 100 1, 0⟩]

/-- Concrete ledger for the C4 witness: an in-year dividend of 5 EUR with
0.50 EUR withholding tax, plus an in-year dividend rounding to 0.00 and an
out-of-year dividend, both of which must be absent. -/
def c4Ledger : List Tx :=
  [⟨"T212", "2025-04-01", "DIV", "ABC", "US1112223334", "AbcCorp", 0, mkRat 5 1, mkRat 1 2⟩,
   ⟨"T212", "2025-05-01", "DIV", "ZZ", "US9998887776", "ZetaCorp", 0, mkRat 1 1000, 0⟩,
   ⟨"T212", "2024-04-01", "DIV", "OLD", "US4445556667", "OldCorp", 0, mkRat 7 1, 0⟩]

/-- The record C4's witness expects for the 5 EUR dividend. -/
def c4Record : DivRecord :=
  ⟨"2025-04-01", "00000000", "AbcCorp", "Unknown Address", "US", "1", 500, 50, "US"⟩

/-- Concrete ledger for C5: one in-year interest entry of value 0. -/
def c5Ledger : List Tx :=
  [⟨"Revolut", "2025-03-01", "INTEREST", "CASH", "", "Revolut Interest", 0, 0, 0⟩]

/-- Concrete ledger for C10's counterexample: an in-year dividend whose
entry has no identifier. -/
def c10Ledger : List Tx :=
  [⟨"Revolut", "2025-04-01", "DIV", "ABC", "", "AbcCorp", 0, mkRat 5 1, 0⟩]

/-- Concrete ledger for the C10 witness: an identifier exercising the
alphabetic branch. -/
def c10wLedger : List Tx :=
  [⟨"T212", "2025-04-01", "DIV", "SAP", "de0007164600", "Sap", 0, mkRat 3 1, 0⟩]

/-- The record C10's witness expects (lowercase "de" uppercased to "DE"). -/
def c10wRecord : DivRecord :=
  ⟨"2025-04-01", "00000000", "Sap", "Unknown Address", "DE", "1", 300, 0, "DE"⟩

/-- An identifier-lookup collaborator that never finds anything. -/
def lookupNone : String → Option String := fun _ => none

/-- Concrete assembler input for C6's counterexample: one entry whose value
is exactly 0. -/
def c6Rows : List Tx :=
  [⟨"Revolut", "2025-04-01", "DIV", "ABC", "US1112223334", "AbcCorp", 0, 0, 0⟩]

/-- Concrete entry for C6's witness: its value rounds to zero at 2 decimals. -/
def c6wRow : Tx :=
  ⟨"T212", "2025-02-03", "INTEREST", "CASH", "", "T212 Interest", 0, mkRat 1 1000, 0⟩

/-- Concrete assembler input for C6's witness. -/
def c6wRows : List Tx := [c6wRow]

/-- Concrete assembler input for C7's counterexample: the ticker's BUY row
carries an identifier, its DIV row does not. -/
def c7Rows : List Tx :=
  [⟨"T212", "2025-03-01", "BUY", "ABC", "US1112223334", "AbcCorp", mkRat 1 1, mkRat 10 1, 0⟩,
   ⟨"T212", "2025-04-01", "DIV", "ABC", "", "AbcCorp", 0, mkRat 5 1, 0⟩]

/-- Concrete assembler input for C7's witness: a BUY carrying the
identifier and a SELL missing it. -/
def c7wRows : List Tx :=
  [⟨"T212", "2025-03-01", "BUY", "ABC", "US1112223334", "AbcCorp", mkRat 1 1, mkRat 10 1, 0⟩,
   ⟨"T212", "2025-05-01", "SELL", "ABC", "", "AbcCorp", mkRat 1 1, mkRat 12 1, 0⟩]

/-- The SELL entry as it appears in the ledger assembled from `c7wRows`:
its identifier has been filled from the BUY row's. -/
def c7wSellOut : Tx :=
  ⟨"T212", "2025-05-01", "SELL", "ABC", "US1112223334", "AbcCorp", mkRat 1 1, mkRat 12 1, 0⟩

/-- Concrete assembler input for C8's witness: two identifier-less BUY rows
sharing one ticker, so a single failing lookup must serve both. -/
def c8Rows : List Tx :=
  [⟨"Revolut", "2025-01-02", "BUY", "ZZZ", "", "ZZZ", mkRat 1 1, mkRat 10 1, 0⟩,
   ⟨"Revolut", "2025-01-03", "BUY", "ZZZ", "", "ZZZ", mkRat 1 1, mkRat 11 1, 0⟩]

/-- A strptime collaborator for which no layout matches: the model of a
date text parsed by none of the known formats. -/
def strptimeNone : String → String → Option String := fun _ _ => none

/-- Concrete Trading212 row (experimentf variant) whose `Time` text parses
under no layout. -/
def c9BadT212 : T212MRow :=
  ⟨"Market buy", "31/XX/2026 10:00", "AAPL", "2", "10.00", "", "", "US0378331005",
   "Apple", "", ""⟩

/-- A pandas date-parser collaborator for C9's witness: it parses exactly
one timestamp. -/
def c9Parse : String → Option String :=
  fun s => if s == "2025-01-02T10:00:00Z" then some "2025-01-02" else none

/-- A converter collaborator that never finds a rate. -/
def convNotFound : String → String → Option (Rat × String × Rat) := fun _ _ => none

/-- Concrete Revolut row for C9's witness whose date parses. -/
def c9GoodRow : RevRow :=
  ⟨"BUY", "AAPL", "", "", "2025-01-02T10:00:00Z", "", mkRat 5 1, 0, "EUR", mkRat 1 1⟩

/-- Concrete Revolut row for C9's witness whose date does not parse. -/
def c9BadRow : RevRow :=
  ⟨"BUY", "AAPL", "", "", "garbage", "", mkRat 5 1, 0, "EUR", mkRat 1 1⟩

/-! ### Helper lemmas about the generators -/

theorem mem_insertByDate {x t : Tx} {l : List Tx} :
    x ∈ insertByDate l t ↔ x = t ∨ x ∈ l := by
  induction l with
  | nil => simp [insertByDate]
  | cons h rest ih =>
    show x ∈ (if pyStrLt t.Date h.Date then t :: h :: rest else h :: insertByDate rest t)
      ↔ x = t ∨ x ∈ h :: rest
    by_cases hc : pyStrLt t.Date h.Date = true
    · rw [if_pos hc]
      simp [List.mem_cons]
    · rw [if_neg hc]
      simp only [List.mem_cons, ih]
      tauto

theorem mem_foldl_insertByDate {x : Tx} (l acc : List Tx) :
    x ∈ l.foldl insertByDate acc ↔ x ∈ acc ∨ x ∈ l := by
  induction l generalizing acc with
  | nil => simp
  | cons h rest ih =>
    simp only [List.foldl_cons, ih, mem_insertByDate, List.mem_cons]
    tauto

theorem mem_sortByDate {x : Tx} {l : List Tx} : x ∈ sortByDate l ↔ x ∈ l := by
  simp [sortByDate, mem_foldl_insertByDate]

theorem format_decimal_no_require (v : Rat) (p : Nat) :
    format_decimal v p false = some (pyRound v p) := rfl

theorem divEmit_eq_some {t : Tx} {r : DivRecord} :
    divEmit t = some r ↔
      0 < pyRound t.TotalValueEUR 2 ∧ r = divRecordOf t (pyRound t.TotalValueEUR 2) := by
  show (if pyRound t.TotalValueEUR 2 ≤ 0 then none
        else some (divRecordOf t (pyRound t.TotalValueEUR 2))) = some r ↔ _
  by_cases h : pyRound t.TotalValueEUR 2 ≤ 0
  · rw [if_pos h]
    simp [not_lt.mpr h]
  · rw [if_neg h]
    simp only [Option.some_inj, not_le.mp h, true_and]
    exact ⟨fun e => e.symm, fun e => e.symm⟩

theorem mem_generate_div {txs : List Tx} {r : DivRecord} :
    r ∈ generate_div txs ↔
      ∃ t ∈ txs, t.Typ = "DIV" ∧ pyStarts t.Date (toString TAX_YEAR) = true ∧
        divEmit t = some r := by
  unfold generate_div
  simp only [List.mem_filterMap, mem_sortByDate, List.mem_filter,
    Bool.and_eq_true, beq_iff_eq]
  constructor
  · rintro ⟨t, ⟨ht, hty, hst⟩, he⟩; exact ⟨t, ht, hty, hst, he⟩
  · rintro ⟨t, ht, hty, hst, he⟩; exact ⟨t, ⟨ht, hty, hst⟩, he⟩

/-! ### Claims about the filing generators -/

/-- C1: the claim states that a ticker group appears in the capital-gains
document iff one of its SELLs is in the reporting year, and that an included
group lists one acquisition per BUY and one disposal per SELL.  The code
cannot deliver this: the `for t in trades` loop of `generate_kdvp`
(`generate_xmls.py` lines 163-171) reads the local variable `row` before any
assignment, so the generator raises `UnboundLocalError` on the very first
trade of the very first included group.  On a ledger with one BUY and one
in-year SELL of AAPL — where the claim promises a group with one acquisition
and one disposal — the generator errors and emits no groups at all. -/
theorem C1_kdvp_group_crash :
    generate_kdvp c1Ledger = .error .unboundLocalRow := by rfl

/-- C3: the claim states that every filing generator runs to completion on
every ledger, in particular the capital-gains generator on any ledger with a
ticker group containing an in-year SELL.  In fact `generate_kdvp` raises
`UnboundLocalError` (variable `row` referenced before assignment,
`generate_xmls.py` line 165) on exactly those ledgers: here, a ledger with a
single in-year SELL. -/
theorem C3_kdvp_fatal_crash :
    generate_kdvp c3Ledger = .error .unboundLocalRow := by rfl

/-- C4: the dividend document contains exactly the DIV entries dated in the
reporting year whose value rounds to a strictly positive amount at 2
decimals, and no emitted record carries a zero (or negative) `Value`. -/
theorem C4_dividend_filter (txs : List Tx) :
    (∀ r : DivRecord, r ∈ generate_div txs ↔
      ∃ t ∈ txs, t.Typ = "DIV" ∧ pyStarts t.Date (toString TAX_YEAR) = true ∧
        0 < pyRound t.TotalValueEUR 2 ∧ divEmit t = some r) ∧
    (∀ r ∈ generate_div txs, 0 < r.Value) := by
  constructor
  · intro r
    rw [mem_generate_div]
    constructor
    · rintro ⟨t, ht, hty, hst, he⟩
      exact ⟨t, ht, hty, hst, (divEmit_eq_some.mp he).1, he⟩
    · rintro ⟨t, ht, hty, hst, _, he⟩
      exact ⟨t, ht, hty, hst, he⟩
  · intro r hr
    obtain ⟨t, _, _, _, he⟩ := mem_generate_div.mp hr
    obtain ⟨hpos, hrec⟩ := divEmit_eq_some.mp he
    rw [hrec]
    exact hpos

/-- Witness for C4 at a concrete ledger. -/
theorem C4_dividend_filter_witness :
    c4Record ∈ generate_div c4Ledger ∧ 0 < c4Record.Value :=
  ⟨((C4_dividend_filter c4Ledger).1 c4Record).mpr (by decide),
   (C4_dividend_filter c4Ledger).2 c4Record
     (((C4_dividend_filter c4Ledger).1 c4Record).mpr (by decide))⟩

/-- C5: the claim (and the source's own comment `# skip interest item that
would be 0.00`) says an in-year interest entry whose value rounds to zero
produces no record.  The guard `if znesek_str is None: continue`
(`generate_xmls.py` lines 316-318) tests `format_decimal(t['TotalValueEUR'], 2)`
called without `require_nonzero=True`, which never returns `None`, so the
zero-value entry is emitted with `Znesek = "0.00"`. -/
theorem C5_zero_interest_emitted :
    ∃ r ∈ generate_obr c5Ledger,
      r.Znesek = 0 ∧ r.DatumPrejetja = "2025-03-01" := by decide

/-- C10 counterexample: the claim says the country code equals the fixed
default ("US" in this code) whenever the identifier is absent.  In fact an
absent identifier is first replaced by the placeholder "UNKNOWN"
(`generate_xmls.py` line 244), whose first two letters are alphabetic, so
the emitted record carries country "UN", not the default "US". -/
theorem C10_absent_isin_country :
    ∃ r ∈ generate_div c10Ledger, r.PayerCountry = "UN" ∧ r.PayerCountry ≠ "US" := by
  decide

/-- C10 (amended): for every emitted dividend record there is a source entry
such that the record's payer country and source country both equal the
country code derived from that entry's identifier, where: an absent
identifier yields "UN" (via the "UNKNOWN" placeholder); a present identifier
with at least two characters whose first two are alphabetic yields those two
characters uppercased; and any other present identifier yields the default
"US". -/
theorem C10_country_code (txs : List Tx) (r : DivRecord)
    (hr : r ∈ generate_div txs) :
    ∃ t ∈ txs,
      r.PayerCountry = divCountryCode t.ISIN ∧
      r.SourceCountry = divCountryCode t.ISIN ∧
      (t.ISIN = "" → r.PayerCountry = "UN") ∧
      (t.ISIN ≠ "" → 2 ≤ t.ISIN.data.length → pyIsAlpha (pySlice t.ISIN 2) = true →
        r.PayerCountry = pyUpper (pySlice t.ISIN 2)) ∧
      (t.ISIN ≠ "" → ¬(2 ≤ t.ISIN.data.length ∧ pyIsAlpha (pySlice t.ISIN 2) = true) →
        r.PayerCountry = "US") := by
  obtain ⟨t, ht, _, _, he⟩ := mem_generate_div.mp hr
  obtain ⟨_, hrec⟩ := divEmit_eq_some.mp he
  have hPC : r.PayerCountry = divCountryCode t.ISIN := by rw [hrec]; rfl
  have hSC : r.SourceCountry = divCountryCode t.ISIN := by rw [hrec]; rfl
  refine ⟨t, ht, hPC, hSC, ?_, ?_, ?_⟩
  · intro h0
    rw [hPC, h0]
    decide
  · intro hne hlen halpha
    rw [hPC]
    unfold divCountryCode
    rw [if_neg (show ¬((t.ISIN == "") = true) by simpa using hne)]
    unfold divCountryCore
    split
    · rfl
    · next hcond =>
      exfalso
      simp only [Bool.and_eq_true, decide_eq_true_eq] at hcond
      exact hcond ⟨hlen, halpha⟩
  · intro hne hnot
    rw [hPC]
    unfold divCountryCode
    rw [if_neg (show ¬((t.ISIN == "") = true) by simpa using hne)]
    unfold divCountryCore
    split
    · next hcond =>
      exfalso
      simp only [Bool.and_eq_true, decide_eq_true_eq] at hcond
      exact hnot hcond
    · rfl

/-- Witness for C10 at a concrete ledger. -/
theorem C10_country_code_witness :
    ∃ t ∈ c10wLedger,
      c10wRecord.PayerCountry = divCountryCode t.ISIN ∧
      c10wRecord.SourceCountry = divCountryCode t.ISIN ∧
      (t.ISIN = "" → c10wRecord.PayerCountry = "UN") ∧
      (t.ISIN ≠ "" → 2 ≤ t.ISIN.data.length → pyIsAlpha (pySlice t.ISIN 2) = true →
        c10wRecord.PayerCountry = pyUpper (pySlice t.ISIN 2)) ∧
      (t.ISIN ≠ "" → ¬(2 ≤ t.ISIN.data.length ∧ pyIsAlpha (pySlice t.ISIN 2) = true) →
        c10wRecord.PayerCountry = "US") :=
  C10_country_code c10wLedger c10wRecord (by decide)

theorem getRateDays_skip {rates : RateTable} {currency : String} {d : Int}
    {ds : List Int} (h : presentRate rates currency d = none) :
    getRateDays rates currency (d :: ds) = getRateDays rates currency ds := by
  conv_lhs => rw [getRateDays]
  unfold presentRate at h
  cases hl : List.lookup d rates with
  | none => rfl
  | some row =>
    rw [hl, Option.some_bind] at h
    cases hc : List.lookup currency row with
    | none => simp [hc]
    | some cell =>
      rw [hc, Option.some_bind] at h
      cases cell with
      | none => simp [hc]
      | some raw => simp at h

theorem getRateDays_hit {rates : RateTable} {currency : String} {d : Int}
    {ds : List Int} {raw : Rat} (h : presentRate rates currency d = some raw) :
    getRateDays rates currency (d :: ds)
      = if raw = 0 then .error .zeroDivision else .ok (some (rInv raw, d, raw)) := by
  conv_lhs => rw [getRateDays]
  unfold presentRate at h
  cases hl : List.lookup d rates with
  | none => rw [hl, Option.none_bind, Option.none_bind] at h; cases h
  | some row =>
    rw [hl, Option.some_bind] at h
    cases hc : List.lookup currency row with
    | none => rw [hc, Option.none_bind] at h; cases h
    | some cell =>
      rw [hc, Option.some_bind] at h
      cases cell with
      | none => cases h
      | some r0 =>
        simp only [id] at h
        injection h with h'
        subst h'
        simp only [hc]
        by_cases hz : r0 = 0
        · rw [if_pos (show (r0 == 0) = true by simpa using hz), if_pos hz]
        · rw [if_neg (show ¬((r0 == 0) = true) by simpa using hz), if_neg hz]

/-- C2 counterexample: the claim says the first candidate day with a
present, non-zero, non-missing rate wins — so on `c2Table` the spec-modelled
lookup skips day 0 (zero rate) and returns day -1's factor 1/2.  The code
does not test for zero: it computes `1 / raw_rate` on day 0 and raises
`ZeroDivisionError` instead. -/
theorem C2_zero_rate_counterexample :
    get_rate c2Table 0 "USD" = .error .zeroDivision ∧
    rate_lookup_spec c2Table 0 "USD" = some (mkRat 1 2, -1) := by decide

/-- C2 (amended): the reporting currency returns factor 1.0 immediately;
otherwise the lookup examines `date, date-1, ..., date-4` in order and the
first day with a present, non-missing rate decides the result — the factor
`1/rate` and that day when the rate is non-zero, an unhandled
`ZeroDivisionError` when the rate is zero (a zero rate is not skipped); when
none of the 5 candidate days has a present, non-missing rate the result is
NotFound. -/
theorem C2_get_rate_lookback (rates : RateTable) (date : Int) (currency : String) :
    (currency = "EUR" →
      get_rate rates date currency = .ok (some (mkRat 1 1, date, mkRat 1 1))) ∧
    (currency ≠ "EUR" → ∀ i : Nat, i < 5 → ∀ raw : Rat,
      presentRate rates currency (date - (i : Int)) = some raw →
      (∀ j : Nat, j < i → presentRate rates currency (date - (j : Int)) = none) →
      get_rate rates date currency =
        if raw = 0 then .error .zeroDivision
        else .ok (some (rInv raw, date - (i : Int), raw))) ∧
    (currency ≠ "EUR" →
      (∀ i : Nat, i < 5 → presentRate rates currency (date - (i : Int)) = none) →
      get_rate rates date currency = .ok none) := by
  have hlist : (List.range 5).map (fun i => date - (i : Int))
      = [date - ((0 : Nat) : Int), date - ((1 : Nat) : Int), date - ((2 : Nat) : Int),
         date - ((3 : Nat) : Int), date - ((4 : Nat) : Int)] := rfl
  refine ⟨?_, ?_, ?_⟩
  · intro h
    unfold get_rate
    rw [if_pos (show (currency == "EUR") = true by simpa using h)]
  · intro hne i hi raw hp hprev
    unfold get_rate
    rw [if_neg (show ¬((currency == "EUR") = true) by simpa using hne), hlist]
    interval_cases i
    · rw [getRateDays_hit hp]
    · rw [getRateDays_skip (hprev 0 (by omega)), getRateDays_hit hp]
    · rw [getRateDays_skip (hprev 0 (by omega)), getRateDays_skip (hprev 1 (by omega)),
        getRateDays_hit hp]
    · rw [getRateDays_skip (hprev 0 (by omega)), getRateDays_skip (hprev 1 (by omega)),
        getRateDays_skip (hprev 2 (by omega)), getRateDays_hit hp]
    · rw [getRateDays_skip (hprev 0 (by omega)), getRateDays_skip (hprev 1 (by omega)),
        getRateDays_skip (hprev 2 (by omega)), getRateDays_skip (hprev 3 (by omega)),
        getRateDays_hit hp]
  · intro hne hall
    unfold get_rate
    rw [if_neg (show ¬((currency == "EUR") = true) by simpa using hne), hlist,
      getRateDays_skip (hall 0 (by omega)), getRateDays_skip (hall 1 (by omega)),
      getRateDays_skip (hall 2 (by omega)), getRateDays_skip (hall 3 (by omega)),
      getRateDays_skip (hall 4 (by omega))]
    rfl

/-- Witness for C2 at a concrete table: requesting day 0 falls back to day
-1 and returns factor 1/2 with that day. -/
theorem C2_get_rate_lookback_witness :
    get_rate c2wTable 0 "USD" = .ok (some (mkRat 1 2, -1, mkRat 2 1)) := by
  have h := (C2_get_rate_lookback c2wTable 0 "USD").2.1 (by decide) 1 (by decide)
      (mkRat 2 1) (by decide) (by decide)
  rw [h, if_neg (by decide)]
  decide

/-! ### Helper lemmas about the assembler -/

theorem length_insertByDate (l : List Tx) (t : Tx) :
    (insertByDate l t).length = l.length + 1 := by
  induction l with
  | nil => rfl
  | cons h rest ih =>
    show (if pyStrLt t.Date h.Date then t :: h :: rest else h :: insertByDate rest t).length = _
    by_cases hc : pyStrLt t.Date h.Date = true
    · rw [if_pos hc]; simp
    · rw [if_neg hc]; simp [ih]

theorem length_sortByDate (l : List Tx) : (sortByDate l).length = l.length := by
  have aux : ∀ (l acc : List Tx), (l.foldl insertByDate acc).length = acc.length + l.length := by
    intro l
    induction l with
    | nil => simp
    | cons h rest ih =>
      intro acc
      simp only [List.foldl_cons, ih, length_insertByDate, List.length_cons]
      omega
  simpa using aux l []

theorem cacheGet_up_self (c : List (String × String)) (k v : String) :
    cacheGet (cacheUp c k v) k = some v := by
  show List.lookup k ((k, v) :: c) = some v
  simp [List.lookup]

theorem cacheGet_up_ne (c : List (String × String)) (k v k' : String) (h : k' ≠ k) :
    cacheGet (cacheUp c k v) k' = cacheGet c k' := by
  show List.lookup k' ((k, v) :: c) = List.lookup k' c
  rw [List.lookup, show (k' == k) = false from beq_eq_false_iff_ne.mpr h]

theorem resolveStep_outRows (lookup : String → Option String) (st : ResolveState) (r : Tx) :
    ∃ isin, (resolveStep lookup st r).outRows = st.outRows ++ [{ r with ISIN := isin }] := by
  unfold resolveStep
  repeat' split
  all_goals exact ⟨_, rfl⟩

theorem resolveStep_skipped (lookup : String → Option String) (st : ResolveState) (r : Tx) :
    (resolveStep lookup st r).skipped = st.skipped ∨
    (resolveStep lookup st r).skipped
      = st.skipped ++ [⟨"ISIN_CHECK", none, .isinNotFound r.Ticker⟩] := by
  unfold resolveStep
  repeat' split
  all_goals first
    | exact Or.inl rfl
    | exact Or.inr rfl

theorem foldResolve_outRows_mono (lookup : String → Option String) :
    ∀ (l : List Tx) (st : ResolveState) {x : Tx}, x ∈ st.outRows →
      x ∈ (l.foldl (resolveStep lookup) st).outRows := by
  intro l
  induction l with
  | nil => exact fun st _ hx => hx
  | cons r rest ih =>
    intro st x hx
    simp only [List.foldl_cons]
    apply ih
    obtain ⟨isin, he⟩ := resolveStep_outRows lookup st r
    rw [he]
    exact List.mem_append_left _ hx

theorem foldResolve_mem (lookup : String → Option String) :
    ∀ (l : List Tx) (st : ResolveState) {r : Tx}, r ∈ l →
      ∃ isin, { r with ISIN := isin } ∈ (l.foldl (resolveStep lookup) st).outRows := by
  intro l
  induction l with
  | nil => intro st r hr; cases hr
  | cons r0 rest ih =>
    intro st r hr
    simp only [List.foldl_cons]
    rcases List.mem_cons.mp hr with h0 | hmem
    · subst h0
      obtain ⟨isin, he⟩ := resolveStep_outRows lookup st r
      refine ⟨isin, foldResolve_outRows_mono lookup rest _ ?_⟩
      rw [he]
      exact List.mem_append_right _ (List.mem_singleton_self _)
    · exact ih _ hmem

theorem foldResolve_length (lookup : String → Option String) :
    ∀ (l : List Tx) (st : ResolveState),
      (l.foldl (resolveStep lookup) st).outRows.length = st.outRows.length + l.length := by
  intro l
  induction l with
  | nil => simp
  | cons r rest ih =>
    intro st
    simp only [List.foldl_cons, ih]
    obtain ⟨isin, he⟩ := resolveStep_outRows lookup st r
    rw [he]
    simp only [List.length_append, List.length_cons, List.length_nil]
    omega

theorem foldResolve_skipped_shape (lookup : String → Option String) :
    ∀ (l : List Tx) (st : ResolveState) (s : SkipRec),
      s ∈ (l.foldl (resolveStep lookup) st).skipped →
      s ∈ st.skipped ∨ ∃ tk, s = ⟨"ISIN_CHECK", none, .isinNotFound tk⟩ := by
  intro l
  induction l with
  | nil => exact fun st s hs => Or.inl hs
  | cons r rest ih =>
    intro st s hs
    simp only [List.foldl_cons] at hs
    rcases ih _ s hs with hmem | hex
    · rcases resolveStep_skipped lookup st r with he | he
      · rw [he] at hmem; exact Or.inl hmem
      · rw [he] at hmem
        rcases List.mem_append.mp hmem with h1 | h2
        · exact Or.inl h1
        · exact Or.inr ⟨r.Ticker, List.mem_singleton.mp h2⟩
    · exact Or.inr hex

theorem typ_cases_of_not_buysell {r : Tx} (h : (!(r.Typ == "BUY" || r.Typ == "SELL")) = true) :
    ¬(r.Typ = "BUY" ∨ r.Typ = "SELL") := by
  simp only [Bool.not_eq_true', Bool.or_eq_false_iff, beq_eq_false_iff_ne] at h
  rintro (h1 | h2)
  · exact h.1 h1
  · exact h.2 h2

theorem buildCache_pres {tk X : String} :
    ∀ (rows : List Tx) (acc : List (String × String)),
    (∀ r ∈ rows, r.Ticker = tk → r.ISIN ≠ "" → r.ISIN = X) →
    cacheGet acc tk = some X →
    cacheGet (rows.foldl buildCacheStep acc) tk = some X := by
  intro rows
  induction rows with
  | nil => exact fun acc _ hacc => hacc
  | cons r rest ih =>
    intro acc hrows hacc
    simp only [List.foldl_cons]
    apply ih _ (fun r' h' => hrows r' (List.mem_cons_of_mem _ h'))
    unfold buildCacheStep
    split
    · next hcond =>
      by_cases htk : r.Ticker = tk
      · have hX : r.ISIN = X :=
          hrows r (List.mem_cons_self _ _) htk (by simpa using hcond)
        rw [htk, hX]
        exact cacheGet_up_self _ _ _
      · rw [cacheGet_up_ne _ _ _ _ (fun he => htk he.symm)]
        exact hacc
    · exact hacc

theorem buildCache_some {tk X : String} (hX : X ≠ "") :
    ∀ (rows : List Tx) (acc : List (String × String)),
    (∀ r ∈ rows, r.Ticker = tk → r.ISIN ≠ "" → r.ISIN = X) →
    (∃ r ∈ rows, r.Ticker = tk ∧ r.ISIN = X) →
    cacheGet (rows.foldl buildCacheStep acc) tk = some X := by
  intro rows
  induction rows with
  | nil =>
    intro acc _ hex
    obtain ⟨r, hr, _⟩ := hex
    cases hr
  | cons r0 rest ih =>
    intro acc hrows hex
    simp only [List.foldl_cons]
    obtain ⟨r, hr, htk, hisin⟩ := hex
    rcases List.mem_cons.mp hr with h0 | hmem
    · subst h0
      apply buildCache_pres rest _ (fun r' h' => hrows r' (List.mem_cons_of_mem _ h'))
      unfold buildCacheStep
      rw [if_pos (show (r.ISIN != "") = true by simp [hisin, hX])]
      rw [htk, hisin]
      exact cacheGet_up_self _ _ _
    · exact ih _ (fun r' h' => hrows r' (List.mem_cons_of_mem _ h')) ⟨r, hmem, htk, hisin⟩

theorem buildCache_isSome_pres :
    ∀ (rows : List Tx) (acc : List (String × String)) (k : String),
    (cacheGet acc k).isSome = true →
    (cacheGet (rows.foldl buildCacheStep acc) k).isSome = true := by
  intro rows
  induction rows with
  | nil => exact fun acc k h => h
  | cons r rest ih =>
    intro acc k h
    simp only [List.foldl_cons]
    apply ih
    unfold buildCacheStep
    split
    · by_cases hk : k = r.Ticker
      · rw [hk, cacheGet_up_self]; rfl
      · rw [cacheGet_up_ne _ _ _ _ hk]; exact h
    · exact h

theorem buildCache_isSome_of_mem :
    ∀ (rows : List Tx) (acc : List (String × String)) {r : Tx},
    r ∈ rows → r.ISIN ≠ "" →
    (cacheGet (rows.foldl buildCacheStep acc) r.Ticker).isSome = true := by
  intro rows
  induction rows with
  | nil => intro acc r hr; cases hr
  | cons r0 rest ih =>
    intro acc r hr hne
    simp only [List.foldl_cons]
    rcases List.mem_cons.mp hr with h0 | hmem
    · subst h0
      apply buildCache_isSome_pres
      unfold buildCacheStep
      rw [if_pos (show (r.ISIN != "") = true by simpa using hne), cacheGet_up_self]
      rfl
    · exact ih _ hmem hne

theorem buildCache_none_row {rows : List Tx} {tk : String}
    (hnone : cacheGet (buildCache rows) tk = none) :
    ∀ r ∈ rows, r.Ticker = tk → r.ISIN = "" := by
  intro r hr htk
  by_contra hne
  have hs := buildCache_isSome_of_mem rows [] hr hne
  rw [htk] at hs
  unfold buildCache at hnone
  rw [hnone] at hs
  cases hs

theorem resolveStep_propagate (lookup : String → Option String) {tk X : String}
    {st : ResolveState} {r : Tx}
    (hrow : r.Ticker = tk → r.ISIN ≠ "" → r.ISIN = X)
    (hc : cacheGet st.cache tk = some X)
    (hout : ∀ r' ∈ st.outRows, r'.Ticker = tk →
      (r'.Typ = "BUY" ∨ r'.Typ = "SELL") → r'.ISIN = X) :
    cacheGet (resolveStep lookup st r).cache tk = some X ∧
    ∀ r' ∈ (resolveStep lookup st r).outRows,
      r'.Ticker = tk → (r'.Typ = "BUY" ∨ r'.Typ = "SELL") → r'.ISIN = X := by
  have appOut : ∀ (x : Tx),
      (x.Ticker = tk → (x.Typ = "BUY" ∨ x.Typ = "SELL") → x.ISIN = X) →
      ∀ r' ∈ st.outRows ++ [x], r'.Ticker = tk →
        (r'.Typ = "BUY" ∨ r'.Typ = "SELL") → r'.ISIN = X := by
    intro x hx r' hr' htk hty
    rcases List.mem_append.mp hr' with h1 | h2
    · exact hout r' h1 htk hty
    · have he := List.mem_singleton.mp h2
      subst he
      exact hx htk hty
  unfold resolveStep
  split
  · next hbs =>
    exact ⟨hc, appOut r (fun htk hty => absurd hty (typ_cases_of_not_buysell hbs))⟩
  · next hbs =>
    split
    · next hisin =>
      exact ⟨hc, appOut r (fun htk _ => hrow htk (by simpa using hisin))⟩
    · next hisin =>
      split
      · next isin hm =>
        refine ⟨hc, appOut _ (fun htk _ => ?_)⟩
        have htk' : r.Ticker = tk := htk
        rw [htk'] at hm
        have : some isin = some X := hm.symm.trans hc
        exact Option.some.inj this
      · next hm =>
        split
        · next hsearch =>
          split
          · next isin hm2 => cases hm2
          · next hm2 =>
            refine ⟨hc, appOut r (fun htk _ => ?_)⟩
            have htk' : r.Ticker = tk := htk
            rw [htk'] at hm
            rw [hm] at hc
            cases hc
        · next hsearch =>
          split
          · next found hlook =>
            constructor
            · by_cases htk : r.Ticker = tk
              · rw [htk] at hm
                rw [hm] at hc
                cases hc
              · show cacheGet (cacheUp st.cache r.Ticker found) tk = some X
                rw [cacheGet_up_ne _ _ _ _ (fun he => htk he.symm)]
                exact hc
            · apply appOut
              intro htk _
              have htk' : r.Ticker = tk := htk
              rw [htk'] at hm
              rw [hm] at hc
              cases hc
          · next hlook =>
            refine ⟨hc, appOut r (fun htk _ => ?_)⟩
            have htk' : r.Ticker = tk := htk
            rw [htk'] at hm
            rw [hm] at hc
            cases hc

theorem foldResolve_propagate (lookup : String → Option String) {tk X : String} :
    ∀ (l : List Tx) (st : ResolveState),
    (∀ r ∈ l, r.Ticker = tk → r.ISIN ≠ "" → r.ISIN = X) →
    cacheGet st.cache tk = some X →
    (∀ r' ∈ st.outRows, r'.Ticker = tk →
      (r'.Typ = "BUY" ∨ r'.Typ = "SELL") → r'.ISIN = X) →
    ∀ r' ∈ (l.foldl (resolveStep lookup) st).outRows,
      r'.Ticker = tk → (r'.Typ = "BUY" ∨ r'.Typ = "SELL") → r'.ISIN = X := by
  intro l
  induction l with
  | nil => exact fun st _ _ hout => hout
  | cons r0 rest ih =>
    intro st hrows hc hout
    simp only [List.foldl_cons]
    obtain ⟨hc', hout'⟩ :=
      resolveStep_propagate lookup (hrows r0 (List.mem_cons_self _ _)) hc hout
    exact ih _ (fun r' h' => hrows r' (List.mem_cons_of_mem _ h')) hc' hout'

theorem resolveStep_stays_empty (lookup : String → Option String) {tk : String}
    {st : ResolveState} {r : Tx}
    (hlook : lookup tk = none)
    (hrow : r.Ticker = tk → r.ISIN = "")
    (hc : cacheGet st.cache tk = none)
    (hout : ∀ r' ∈ st.outRows, r'.Ticker = tk → r'.ISIN = "") :
    cacheGet (resolveStep lookup st r).cache tk = none ∧
    ∀ r' ∈ (resolveStep lookup st r).outRows, r'.Ticker = tk → r'.ISIN = "" := by
  have appOut : ∀ (x : Tx), (x.Ticker = tk → x.ISIN = "") →
      ∀ r' ∈ st.outRows ++ [x], r'.Ticker = tk → r'.ISIN = "" := by
    intro x hx r' hr' htk
    rcases List.mem_append.mp hr' with h1 | h2
    · exact hout r' h1 htk
    · have he := List.mem_singleton.mp h2
      subst he
      exact hx htk
  unfold resolveStep
  split
  · next hbs => exact ⟨hc, appOut r hrow⟩
  · next hbs =>
    split
    · next hisin =>
      exact ⟨hc, appOut r (fun htk => absurd (hrow htk) (by simpa using hisin))⟩
    · next hisin =>
      split
      · next isin hm =>
        refine ⟨hc, appOut _ (fun htk => ?_)⟩
        have htk' : r.Ticker = tk := htk
        rw [htk'] at hm
        rw [hm] at hc
        cases hc
      · next hm =>
        split
        · next hsearch =>
          split
          · next isin hm2 => cases hm2
          · next hm2 => exact ⟨hc, appOut r hrow⟩
        · next hsearch =>
          split
          · next found hlk =>
            constructor
            · by_cases htk : r.Ticker = tk
              · rw [htk] at hlk
                rw [hlook] at hlk
                cases hlk
              · show cacheGet (cacheUp st.cache r.Ticker found) tk = none
                rw [cacheGet_up_ne _ _ _ _ (fun he => htk he.symm)]
                exact hc
            · apply appOut
              intro htk
              have htk' : r.Ticker = tk := htk
              rw [htk'] at hlk
              rw [hlook] at hlk
              cases hlk
          · next hlk => exact ⟨hc, appOut r hrow⟩

theorem foldResolve_stays_empty {lookup : String → Option String} {tk : String}
    (hlook : lookup tk = none) :
    ∀ (l : List Tx) (st : ResolveState),
    (∀ r ∈ l, r.Ticker = tk → r.ISIN = "") →
    cacheGet st.cache tk = none →
    (∀ r' ∈ st.outRows, r'.Ticker = tk → r'.ISIN = "") →
    ∀ r' ∈ (l.foldl (resolveStep lookup) st).outRows, r'.Ticker = tk → r'.ISIN = "" := by
  intro l
  induction l with
  | nil => exact fun st _ _ hout => hout
  | cons r0 rest ih =>
    intro st hrows hc hout
    simp only [List.foldl_cons]
    obtain ⟨hc', hout'⟩ :=
      resolveStep_stays_empty lookup hlook (hrows r0 (List.mem_cons_self _ _)) hc hout
    exact ih _ (fun r' h' => hrows r' (List.mem_cons_of_mem _ h')) hc' hout'

theorem resolveStep_calls_inv (lookup : String → Option String)
    {st : ResolveState} (r : Tx)
    (h1 : st.calls.Nodup) (h2 : ∀ t ∈ st.calls, t ∈ st.searched) :
    (resolveStep lookup st r).calls.Nodup ∧
    ∀ t ∈ (resolveStep lookup st r).calls, t ∈ (resolveStep lookup st r).searched := by
  have web : r.Ticker ∉ st.searched →
      (st.calls ++ [r.Ticker]).Nodup ∧
      ∀ t ∈ st.calls ++ [r.Ticker], t ∈ r.Ticker :: st.searched := by
    intro hns
    constructor
    · have hnc : r.Ticker ∉ st.calls := fun hmem => hns (h2 _ hmem)
      simp [List.nodup_append, h1, hnc]
    · intro t ht
      rcases List.mem_append.mp ht with hA | hB
      · exact List.mem_cons_of_mem _ (h2 _ hA)
      · rw [List.mem_singleton.mp hB]
        exact List.mem_cons_self _ _
  unfold resolveStep
  split
  · exact ⟨h1, h2⟩
  split
  · exact ⟨h1, h2⟩
  split
  · exact ⟨h1, h2⟩
  split
  · split
    · exact ⟨h1, h2⟩
    · exact ⟨h1, h2⟩
  · next hsearch =>
    split
    · exact web hsearch
    · exact web hsearch

theorem foldResolve_calls_inv {lookup : String → Option String} :
    ∀ (l : List Tx) (st : ResolveState),
    st.calls.Nodup → (∀ t ∈ st.calls, t ∈ st.searched) →
    (l.foldl (resolveStep lookup) st).calls.Nodup := by
  intro l
  induction l with
  | nil => exact fun st h1 _ => h1
  | cons r rest ih =>
    intro st h1 h2
    simp only [List.foldl_cons]
    obtain ⟨h1', h2'⟩ := resolveStep_calls_inv lookup r h1 h2
    exact ih _ h1' h2'

theorem resolveStep_skip_inv (lookup : String → Option String)
    {st : ResolveState} (r : Tx)
    (h : ∀ t ∈ st.calls, lookup t = none →
      (⟨"ISIN_CHECK", none, .isinNotFound t⟩ : SkipRec) ∈ st.skipped) :
    ∀ t ∈ (resolveStep lookup st r).calls, lookup t = none →
      (⟨"ISIN_CHECK", none, .isinNotFound t⟩ : SkipRec) ∈ (resolveStep lookup st r).skipped := by
  unfold resolveStep
  split
  · exact h
  split
  · exact h
  split
  · exact h
  split
  · split
    · exact h
    · exact h
  · split
    · next found hlk =>
      intro t ht hnone
      rcases List.mem_append.mp ht with hA | hB
      · exact h t hA hnone
      · rw [List.mem_singleton.mp hB] at hnone
        rw [hlk] at hnone
        cases hnone
    · next hlk =>
      intro t ht hnone
      rcases List.mem_append.mp ht with hA | hB
      · exact List.mem_append_left _ (h t hA hnone)
      · rw [List.mem_singleton.mp hB]
        exact List.mem_append_right _ (List.mem_singleton_self _)

theorem foldResolve_skip_inv {lookup : String → Option String} :
    ∀ (l : List Tx) (st : ResolveState),
    (∀ t ∈ st.calls, lookup t = none →
      (⟨"ISIN_CHECK", none, .isinNotFound t⟩ : SkipRec) ∈ st.skipped) →
    ∀ t ∈ (l.foldl (resolveStep lookup) st).calls, lookup t = none →
      (⟨"ISIN_CHECK", none, .isinNotFound t⟩ : SkipRec)
        ∈ (l.foldl (resolveStep lookup) st).skipped := by
  intro l
  induction l with
  | nil => exact fun st h => h
  | cons r rest ih =>
    intro st h
    simp only [List.foldl_cons]
    exact ih _ (resolveStep_skip_inv lookup r h)

theorem resolveStep_growth (lookup : String → Option String)
    {st : ResolveState} (r : Tx) (init : List (String × String))
    (h1 : ∀ k, cacheGet st.cache k = none → cacheGet init k = none)
    (h2 : ∀ t ∈ st.calls, cacheGet init t = none) :
    (∀ k, cacheGet (resolveStep lookup st r).cache k = none → cacheGet init k = none) ∧
    ∀ t ∈ (resolveStep lookup st r).calls, cacheGet init t = none := by
  unfold resolveStep
  split
  · exact ⟨h1, h2⟩
  · split
    · exact ⟨h1, h2⟩
    · split
      · exact ⟨h1, h2⟩
      · next hm =>
        split
        · split
          · next isin hm2 => cases hm2
          · exact ⟨h1, h2⟩
        · split
          · next found hlk =>
            constructor
            · intro k hk
              by_cases hkt : k = r.Ticker
              · rw [hkt, cacheGet_up_self] at hk
                cases hk
              · rw [cacheGet_up_ne _ _ _ _ hkt] at hk
                exact h1 k hk
            · intro t ht
              rcases List.mem_append.mp ht with hA | hB
              · exact h2 t hA
              · rw [List.mem_singleton.mp hB]
                exact h1 _ hm
          · next hlk =>
            refine ⟨h1, ?_⟩
            intro t ht
            rcases List.mem_append.mp ht with hA | hB
            · exact h2 t hA
            · rw [List.mem_singleton.mp hB]
              exact h1 _ hm

theorem foldResolve_growth (lookup : String → Option String)
    (init : List (String × String)) :
    ∀ (l : List Tx) (st : ResolveState),
    (∀ k, cacheGet st.cache k = none → cacheGet init k = none) →
    (∀ t ∈ st.calls, cacheGet init t = none) →
    ∀ t ∈ (l.foldl (resolveStep lookup) st).calls, cacheGet init t = none := by
  intro l
  induction l with
  | nil => exact fun st _ h2 => h2
  | cons r rest ih =>
    intro st h1 h2
    simp only [List.foldl_cons]
    obtain ⟨h1', h2'⟩ := resolveStep_growth lookup r init h1 h2
    exact ih _ h1' h2'

/-! ### Helper lemmas about the Revolut adapter -/

theorem processRevFrom_append (p : String → Option String)
    (c : String → String → Option (Rat × String × Rat)) (xs ys : List RevRow) :
    ∀ i : Nat, processRevFrom p c i (xs ++ ys) =
      ⟨(processRevFrom p c i xs).rows ++ (processRevFrom p c (i + xs.length) ys).rows,
       (processRevFrom p c i xs).audit ++ (processRevFrom p c (i + xs.length) ys).audit,
       (processRevFrom p c i xs).skipped
         ++ (processRevFrom p c (i + xs.length) ys).skipped⟩ := by
  induction xs with
  | nil => intro i; simp [processRevFrom]
  | cons row rest ih =>
    intro i
    show processRevFrom p c i (row :: (rest ++ ys)) = _
    simp only [processRevFrom, ih (i + 1), List.length_cons]
    have hidx : i + 1 + rest.length = i + (rest.length + 1) := by omega
    rw [hidx]
    cases hout : processRevRow p c row with
    | skip reason => rfl
    | keep t a => cases a with
      | none => rfl
      | some ar => rfl

theorem processRevFrom_rows_audit_idx (p : String → Option String)
    (c : String → String → Option (Rat × String × Rat)) (l : List RevRow) :
    ∀ i j : Nat,
      (processRevFrom p c i l).rows = (processRevFrom p c j l).rows ∧
      (processRevFrom p c i l).audit = (processRevFrom p c j l).audit := by
  induction l with
  | nil => exact fun i j => ⟨rfl, rfl⟩
  | cons row rest ih =>
    intro i j
    simp only [processRevFrom]
    obtain ⟨hr, ha⟩ := ih (i + 1) (j + 1)
    cases hout : processRevRow p c row with
    | skip reason => exact ⟨hr, ha⟩
    | keep t a => cases a with
      | none => exact ⟨congrArg (t :: ·) hr, ha⟩
      | some ar => exact ⟨congrArg (t :: ·) hr, congrArg (ar :: ·) ha⟩

theorem processRevRow_invalid_date {p : String → Option String}
    {c : String → String → Option (Rat × String × Rat)} {row : RevRow}
    (htype : revTransTypeOf (pyUpper row.Typ) (pyUpper row.Description) ≠ "")
    (hticker : ¬((revTransTypeOf (pyUpper row.Typ) (pyUpper row.Description) = "BUY" ∨
        revTransTypeOf (pyUpper row.Typ) (pyUpper row.Description) = "SELL" ∨
        revTransTypeOf (pyUpper row.Typ) (pyUpper row.Description) = "DIV") ∧
        revTickerOf row = ""))
    (hdate : p (revRawDate row) = none) :
    processRevRow p c row = .skip (.invalidDate (revRawDate row)) := by
  simp only [processRevRow]
  split
  · next hcond => exact absurd (by simpa using hcond) htype
  · split
    · next hcond =>
      exfalso
      apply hticker
      simp only [Bool.and_eq_true, Bool.or_eq_true, beq_iff_eq] at hcond
      exact ⟨by tauto, hcond.2⟩
    · rw [hdate]

/-! ### Claims about the ledger assembler and adapters -/

/-- C6 counterexample: the claim says the assembler drops every entry whose
value rounds to zero at the filing precision and appends a skip record; on
an input whose single entry has value 0 the emitted ledger retains the
entry and the assembly's skip log is empty. -/
theorem C6_zero_value_retained :
    (∃ r ∈ (assemble lookupNone c6Rows).1, pyRound r.TotalValueEUR 2 = 0) ∧
    (assemble lookupNone c6Rows).2 = [] := by decide

/-- C6 (amended): the ledger assembler drops no entry on account of its
value: every processed entry appears in the emitted canonical ledger with
all fields other than the identifier unchanged (in particular its value,
even when it rounds to zero at the filing precision), the ledger has one
entry per input row, and the only skip records the assembly appends are
failed-identifier-lookup records — never zero-value records.  (Zero-value
suppression happens only in the filing generators.) -/
theorem C6_no_value_drop (lookup : String → Option String) (all_rows : List Tx) :
    (∀ r ∈ all_rows, ∃ r' ∈ (assemble lookup all_rows).1,
      r'.Source = r.Source ∧ r'.Date = r.Date ∧ r'.Typ = r.Typ ∧ r'.Ticker = r.Ticker ∧
      r'.Name = r.Name ∧ r'.Quantity = r.Quantity ∧ r'.TotalValueEUR = r.TotalValueEUR ∧
      r'.TaxPaidEUR = r.TaxPaidEUR) ∧
    (assemble lookup all_rows).1.length = all_rows.length ∧
    ∀ s ∈ (assemble lookup all_rows).2, ∃ tk, s.Reason = .isinNotFound tk := by
  refine ⟨?_, ?_, ?_⟩
  · intro r hr
    have hsr : { r with ISIN := clean_isin r.ISIN } ∈ sanitizeRows all_rows :=
      List.mem_map_of_mem _ hr
    obtain ⟨isin, hmem⟩ := foldResolve_mem lookup (sanitizeRows all_rows) _ hsr
    exact ⟨_, mem_sortByDate.mpr hmem, rfl, rfl, rfl, rfl, rfl, rfl, rfl, rfl⟩
  · show (sortByDate ((sanitizeRows all_rows).foldl (resolveStep lookup) _).outRows).length = _
    rw [length_sortByDate, foldResolve_length]
    simp [sanitizeRows]
  · intro s hs
    rcases foldResolve_skipped_shape lookup (sanitizeRows all_rows) _ s hs with h1 | ⟨tk, he⟩
    · cases h1
    · exact ⟨tk, by rw [he]⟩

/-- Witness for C6 at a concrete input: the zero-rounding interest entry
survives assembly with its value intact. -/
theorem C6_no_value_drop_witness :
    ∃ r' ∈ (assemble lookupNone c6wRows).1,
      r'.Source = c6wRow.Source ∧ r'.Date = c6wRow.Date ∧ r'.Typ = c6wRow.Typ ∧
      r'.Ticker = c6wRow.Ticker ∧ r'.Name = c6wRow.Name ∧
      r'.Quantity = c6wRow.Quantity ∧ r'.TotalValueEUR = c6wRow.TotalValueEUR ∧
      r'.TaxPaidEUR = c6wRow.TaxPaidEUR :=
  (C6_no_value_drop lookupNone c6wRows).1 c6wRow (by decide)

/-- C7 counterexample: the claim says every ledger entry of a ticker whose
events carry identifier X ends with identifier X; on an input whose BUY row
carries the identifier and whose DIV row does not, the emitted DIV entry
still has an empty identifier (the back-fill loop only touches BUY/SELL
rows). -/
theorem C7_div_not_backfilled :
    (∃ r ∈ c7Rows, r.Ticker = "ABC" ∧ clean_isin r.ISIN = "US1112223334") ∧
    ∃ r' ∈ (assemble lookupNone c7Rows).1,
      r'.Ticker = "ABC" ∧ r'.Typ = "DIV" ∧ r'.ISIN = "" := by decide

/-- C7 (amended): for every ticker whose input events carry exactly one
distinct non-empty identifier X (after sanitizing), every BUY and SELL
entry for that ticker in the emitted canonical ledger carries X; entries of
other kinds (DIVIDEND/INTEREST) are not back-filled and may end the run
with an empty identifier. -/
theorem C7_buy_sell_propagation (lookup : String → Option String) (all_rows : List Tx)
    (tk X : String) (hX : X ≠ "")
    (huniq : ∀ r ∈ all_rows, r.Ticker = tk → clean_isin r.ISIN ≠ "" → clean_isin r.ISIN = X)
    (hsome : ∃ r ∈ all_rows, r.Ticker = tk ∧ clean_isin r.ISIN = X) :
    ∀ r' ∈ (assemble lookup all_rows).1,
      r'.Ticker = tk → (r'.Typ = "BUY" ∨ r'.Typ = "SELL") → r'.ISIN = X := by
  have hrows : ∀ r ∈ sanitizeRows all_rows, r.Ticker = tk → r.ISIN ≠ "" → r.ISIN = X := by
    intro r hr htk hne
    obtain ⟨r0, hr0, he⟩ := List.mem_map.mp hr
    subst he
    exact huniq r0 hr0 htk hne
  have hex : ∃ r ∈ sanitizeRows all_rows, r.Ticker = tk ∧ r.ISIN = X := by
    obtain ⟨r0, hr0, htk, hx⟩ := hsome
    exact ⟨{ r0 with ISIN := clean_isin r0.ISIN }, List.mem_map_of_mem _ hr0, htk, hx⟩
  have hcache : cacheGet (buildCache (sanitizeRows all_rows)) tk = some X :=
    buildCache_some hX _ [] hrows hex
  intro r' hr' htk hty
  exact foldResolve_propagate lookup _ _ hrows hcache
    (fun x hx' => absurd hx' (List.not_mem_nil x)) r' (mem_sortByDate.mp hr') htk hty

/-- Witness for C7 at a concrete input: the identifier of the BUY row is
propagated to the identifier-less SELL row, which sits in the assembled
ledger carrying it. -/
theorem C7_buy_sell_propagation_witness :
    c7wSellOut.ISIN = "US1112223334" :=
  C7_buy_sell_propagation lookupNone c7wRows "ABC" "US1112223334"
    (by decide) (by decide) (by decide) c7wSellOut (by decide) (by decide) (by decide)

/-- C8: the external identifier lookup is invoked at most once per distinct
ticker per run; when the lookup for a ticker fails, an `ISIN NOT FOUND`
skip record is appended, every emitted entry of that ticker keeps an empty
identifier (the lookup is not retried within the run), and the ledger is
still emitted in full (one output row per input row). -/
theorem C8_lookup_once (lookup : String → Option String) (all_rows : List Tx) :
    (∀ tk, (assembleSt lookup all_rows).calls.count tk ≤ 1) ∧
    (∀ tk, tk ∈ (assembleSt lookup all_rows).calls → lookup tk = none →
      ((⟨"ISIN_CHECK", none, .isinNotFound tk⟩ : SkipRec)
          ∈ (assembleSt lookup all_rows).skipped ∧
       ∀ r' ∈ (assembleSt lookup all_rows).outRows, r'.Ticker = tk → r'.ISIN = "")) ∧
    (assembleSt lookup all_rows).outRows.length = all_rows.length := by
  refine ⟨?_, ?_, ?_⟩
  · intro tk
    have hnd : (assembleSt lookup all_rows).calls.Nodup :=
      foldResolve_calls_inv _ _ List.nodup_nil (fun t ht => absurd ht (List.not_mem_nil t))
    exact List.nodup_iff_count_le_one.mp hnd tk
  · intro tk hcall hlook
    have hinit : cacheGet (buildCache (sanitizeRows all_rows)) tk = none :=
      foldResolve_growth lookup _ _ _ (fun k hk => hk)
        (fun t ht => absurd ht (List.not_mem_nil t)) tk hcall
    refine ⟨?_, ?_⟩
    · exact foldResolve_skip_inv _ _
        (fun t ht _ => absurd ht (List.not_mem_nil t)) tk hcall hlook
    · exact foldResolve_stays_empty hlook _ _ (buildCache_none_row hinit) hinit
        (fun r' h => absurd h (List.not_mem_nil r'))
  · show ((sanitizeRows all_rows).foldl (resolveStep lookup) _).outRows.length = _
    rw [foldResolve_length]
    simp [sanitizeRows]

/-- Witness for C8 at a concrete input: two rows of one unknown ticker
cause exactly one (failing) lookup, a skip record, and empty identifiers. -/
theorem C8_lookup_once_witness :
    (assembleSt lookupNone c8Rows).calls.count "ZZZ" ≤ 1 ∧
    ((⟨"ISIN_CHECK", none, .isinNotFound "ZZZ"⟩ : SkipRec)
        ∈ (assembleSt lookupNone c8Rows).skipped ∧
     ∀ r' ∈ (assembleSt lookupNone c8Rows).outRows, r'.Ticker = "ZZZ" → r'.ISIN = "") :=
  ⟨(C8_lookup_once lookupNone c8Rows).1 "ZZZ",
   (C8_lookup_once lookupNone c8Rows).2.1 "ZZZ" (by decide) (by decide)⟩

/-- C9 counterexample: the claim says a date text parsed by none of the
known layouts leads to the row being excluded with a skip record; in the
layout-list variant, `parse_date` returns the original text unchanged and
its Trading212 caller keeps the row, carrying the unparsed date into the
output (that script has no skip log at all). -/
theorem C9_parse_date_passthrough :
    parse_date strptimeNone "31/XX/2026 10:00" = "31/XX/2026 10:00" ∧
    ∃ m ∈ process_trading212_m strptimeNone [c9BadT212],
      m.Date = "31/XX/2026 10:00" := by decide

/-- C9 (amended): in the preprocess pipeline's Revolut adapter, a row that
passes the kind and ticker guards but whose date text fails to parse is
excluded from the output (the run's rows equal those of the same input
without that row), an `Invalid Date` skip record carrying the row's index
and raw text is appended, and the remaining rows are still processed.  In
the layout-list variant, however, `parse_date` returns an unparseable text
unchanged and the row is kept. -/
theorem C9_revolut_invalid_date_skip (p : String → Option String)
    (c : String → String → Option (Rat × String × Rat))
    (xs ys : List RevRow) (bad : RevRow)
    (htype : revTransTypeOf (pyUpper bad.Typ) (pyUpper bad.Description) ≠ "")
    (hticker : ¬((revTransTypeOf (pyUpper bad.Typ) (pyUpper bad.Description) = "BUY" ∨
        revTransTypeOf (pyUpper bad.Typ) (pyUpper bad.Description) = "SELL" ∨
        revTransTypeOf (pyUpper bad.Typ) (pyUpper bad.Description) = "DIV") ∧
        revTickerOf bad = ""))
    (hdate : p (revRawDate bad) = none) :
    (process_revolut p c (xs ++ bad :: ys)).rows
      = (process_revolut p c (xs ++ ys)).rows ∧
    (⟨"Revolut", some xs.length, .invalidDate (revRawDate bad)⟩ : SkipRec)
      ∈ (process_revolut p c (xs ++ bad :: ys)).skipped := by
  have hbad : processRevRow p c bad = .skip (.invalidDate (revRawDate bad)) :=
    processRevRow_invalid_date htype hticker hdate
  unfold process_revolut
  rw [processRevFrom_append p c xs (bad :: ys) 0, processRevFrom_append p c xs ys 0]
  constructor
  · show (processRevFrom p c 0 xs).rows ++ (processRevFrom p c (0 + xs.length) (bad :: ys)).rows
      = (processRevFrom p c 0 xs).rows ++ (processRevFrom p c (0 + xs.length) ys).rows
    congr 1
    simp only [processRevFrom, hbad]
    exact (processRevFrom_rows_audit_idx p c ys (0 + xs.length + 1) (0 + xs.length)).1
  · apply List.mem_append_right
    simp only [processRevFrom, hbad]
    have : (0 : Nat) + xs.length = xs.length := Nat.zero_add _
    rw [this]
    exact List.mem_cons_self _ _

/-- Witness for C9 at a concrete input: a good row followed by a bad-date
row yields the same rows as the good row alone, plus the skip record. -/
theorem C9_revolut_invalid_date_skip_witness :
    (process_revolut c9Parse convNotFound ([c9GoodRow] ++ c9BadRow :: [])).rows
      = (process_revolut c9Parse convNotFound ([c9GoodRow] ++ [])).rows ∧
    (⟨"Revolut", some [c9GoodRow].length, .invalidDate (revRawDate c9BadRow)⟩ : SkipRec)
      ∈ (process_revolut c9Parse convNotFound ([c9GoodRow] ++ c9BadRow :: [])).skipped :=
  C9_revolut_invalid_date_skip c9Parse convNotFound [c9GoodRow] [] c9BadRow
    (by decide) (by decide) (by decide)

end SlovTax
